import Mathlib

/-!
Shallow embedding of the race engine of `course_selector.py`
(class `AHUCourseSelector`): outcome classification helpers, NTP clock
synchronisation, bounded result polling, the four-stage single attempt,
and the concurrent race scheduler of `rapid_select_course`.

Modelling conventions:
* Machine clock readings (`datetime` values) are modelled as `Int` seconds.
* Float offsets of `sync_time_with_ntp` are idealised as rationals `ℚ`.
* Python `None` / falsy-dict values appear as `Option` (`none` covers both
  an absent key and a falsy `{}` value where the code only tests truthiness).
* The thread pool of `rapid_select_course` is modelled as a deterministic
  step function driven by an environment: an outcome oracle mapping each
  attempt sequence number to the `(ok, msg)` pair its `_single_attempt`
  returns, and a list of ticks, one per iteration of the scheduling loop,
  each carrying the corrected wall-clock time read at the top of the
  iteration and the set of futures `concurrent.futures.wait` reports done.
-/

namespace CourseSelector

/-- Python `needle in haystack` prefix part: `listPrefix n h` is true iff
`n` is a prefix of `h`. -/
def listPrefix : List Char → List Char → Bool
  | [], _ => true
  | _ :: _, [] => false
  | a :: as, b :: bs => a == b && listPrefix as bs

/-- Python substring containment `needle in haystack` over the underlying
character lists. -/
def listInfix (needle : List Char) : List Char → Bool
  | [] => listPrefix needle []
  | h :: t => listPrefix needle (h :: t) || listInfix needle t

/-- Python `keyword in message` for strings. -/
def strContains (haystack needle : String) : Bool :=
  listInfix needle.toList haystack.toList

/-- The two duplicate-enrollment phrase markers hard-coded in
`_is_duplicate_message`. -/
def duplicateKeywords : List String :=
  ["相同教学班只能选一次", "Duplicate lessons are not allowed"]

/-- `AHUCourseSelector._is_duplicate_message`: `None` and the empty string
are falsy (`if not message: return False`); otherwise any of the two
hard-coded keywords being a substring makes it true. -/
def isDuplicateMessage (message : Option String) : Bool :=
  match message with
  | none => false
  | some m => if m = "" then false
      else duplicateKeywords.any (fun keyword => strContains m keyword)

/-- A Python value passed to `_extract_text_field` (annotated `Any`):
a dict (with the three optional text keys the code reads), a string,
`None`, or any other non-dict non-string value. A key that is present
but holds `None` is modelled the same as an absent key: `dict.get`
returns `None` for both and the `or`-chain treats both as falsy. -/
inductive TextObj where
  | dict (text textZh textEn : Option String)
  | str (s : String)
  | noneV
  | other
deriving DecidableEq, Repr

/-- Python falsy-chaining `a or b` where `a` is `dict.get(key)`:
an absent key (`none`) and an empty string are both falsy. -/
def orFalsy (a : Option String) (b : String) : String :=
  match a with
  | none => b
  | some s => if s = "" then b else s

/-- `AHUCourseSelector._extract_text_field`: on a dict, the falsy-chain
`obj.get('text') or obj.get('textZh') or obj.get('textEn') or ''`;
a string is returned as is; anything else yields `''`. -/
def extractTextField : TextObj → String
  | .dict text textZh textEn => orFalsy text (orFalsy textZh (orFalsy textEn ""))
  | .str s => s
  | .noneV => ""
  | .other => ""

/-! ### Race window arithmetic (`rapid_select_course`, lines 822–831) -/

/-- The fixed overrun budget `max_duration = 180` seconds. -/
def maxDuration : Int := 180

/-- Start time of the race window: `now_dt - timedelta(seconds=1)` when the
target time is already past, else `target_time - timedelta(seconds=5)`. -/
def computeStart (nowDt targetTime : Int) : Int :=
  if nowDt > targetTime then nowDt - 1 else targetTime - 5

/-- Deadline of the race window:
`max(target_time, now_dt) + timedelta(seconds=max_duration)`. -/
def computeDeadline (nowDt targetTime : Int) : Int :=
  max targetTime nowDt + maxDuration

/-! ### `sync_time_with_ntp` (lines 779–813) -/

/-- Severity of a console diagnostic, matching the four `ConsoleUI`
channels used through the `_info`/`_success`/`_warn`/`_error` wrappers. -/
inductive LogLevel where
  | info
  | success
  | warn
  | error
deriving DecidableEq, Repr

/-- One NTP measurement round: either the request succeeds and yields the
offset `ntp_time - local_time` (float idealised as `ℚ`), or the
`client.request` call raises and the round is skipped. -/
inductive NtpSample where
  | ok (offset : ℚ)
  | fail (errMsg : String)
deriving DecidableEq, Repr

/-- The successful offsets collected by the `for i in range(3)` loop: each
failing sample is caught by its own `except` and only skips itself. -/
def ntpOffsets (samples : List NtpSample) : List ℚ :=
  samples.filterMap (fun s => match s with
    | .ok offset => some offset
    | .fail _ => none)

/-- The diagnostics emitted by the sampling loop, one per round. -/
def ntpLoopLogs (samples : List NtpSample) : List (LogLevel × String) :=
  samples.map (fun s => match s with
    | .ok _ => (.info, "测量")
    | .fail e => (.error, "NTP同步失败: " ++ e))

/-- `AHUCourseSelector.sync_time_with_ntp`, as a function of the three
sample results: returns the mean `sum(offsets) / len(offsets)` of the
successful samples together with the emitted diagnostics, or `0.0` with an
error-level and an info-level diagnostic when every sample failed. -/
def syncTimeWithNtp (samples : List NtpSample) : ℚ × List (LogLevel × String) :=
  let offsets := ntpOffsets samples
  if offsets ≠ [] then
    let avgOffset := offsets.sum / offsets.length
    (avgOffset, ntpLoopLogs samples ++
      [(.success, "NTP时间同步成功"), (.info, "平均时间偏差")])
  else
    (0, ntpLoopLogs samples ++
      [(.error, "所有NTP同步尝试失败"), (.info, "将使用本地时间")])

/-! ### Bounded result polling (`get_predicate_response`, lines 562–623,
and `get_add_drop_response`, lines 625–675) -/

/-- The `errorMessage` dict carried by a poll result. The code reads the
`text` key with `.get('text', '未知错误')` (add-drop) or through
`_extract_text_field` (single attempt), so all three text keys are kept. -/
structure ErrMsg where
  text : Option String
  textZh : Option String
  textEn : Option String
deriving DecidableEq, Repr

/-- View an optional `errorMessage` dict as a `_extract_text_field`
argument (`None` / falsy `{}` become the non-dict `noneV` case). -/
def errToObj : Option ErrMsg → TextObj
  | some e => .dict e.text e.textZh e.textEn
  | none => .noneV

/-- One value of the predicate result map `data['result']`: the code runs
`isinstance(v, dict) and self._is_duplicate_message(v.get('text', ''))`
over `pred_map.values()`. -/
inductive MapVal where
  | dict (text : Option String)
  | other
deriving DecidableEq, Repr

/-- The `data` payload of a predicate-response poll (`data['data']`):
`success`, an optional `errorMessage` dict and the result map values.
`none` at the field level models an absent or falsy value. -/
structure PredData where
  success : Bool
  errorMessage : Option ErrMsg
  resultMap : List MapVal
deriving DecidableEq, Repr

/-- The parsed JSON body of one predicate-response poll round:
`result` code plus the optional `data` payload. -/
structure PredPoll where
  result : Int
  data : Option PredData
deriving DecidableEq, Repr

/-- One polling round as seen by the `try`/`except`: either the GET
succeeds and parses, or some call in the round raises. -/
inductive PollEvent (α : Type) where
  | ok (resp : α)
  | exn
deriving DecidableEq, Repr

/-- One issued GET of a polling loop: the zero-based round index and the
per-call timeout passed to `self.session.get(url, timeout=timeout)`. -/
structure PollRequest where
  round : Nat
  timeout : ℚ
deriving DecidableEq, Repr

/-- The loop body of `get_predicate_response`, recursing on the remaining
retry budget; `i` is the zero-based round index, and the returned list
records the GET requests issued. A raised exception retries when
`i < max_retries - 1` (that is, when further budget remains) and otherwise
returns `None`; `result == 0` with truthy `data` returns the payload;
`result == 0` with falsy `data` waits and retries; `result != 0` returns
`None`; an exhausted budget falls out of the loop and returns `None`. -/
def predRespGo (polls : Nat → PollEvent PredPoll) (timeout : ℚ) :
    Nat → Nat → Option PredData × List PollRequest
  | _, 0 => (none, [])
  | i, remaining + 1 =>
    let req : PollRequest := ⟨i, timeout⟩
    match polls i with
    | .exn =>
        if remaining = 0 then (none, [req])
        else
          let (r, reqs) := predRespGo polls timeout (i + 1) remaining
          (r, req :: reqs)
    | .ok p =>
        if p.result = 0 then
          match p.data with
          | some d => (some d, [req])
          | none =>
              let (r, reqs) := predRespGo polls timeout (i + 1) remaining
              (r, req :: reqs)
        else (none, [req])

/-- `AHUCourseSelector.get_predicate_response`: poll at most `maxRetries`
rounds, returning the terminal payload or `None`. -/
def getPredicateResponse (polls : Nat → PollEvent PredPoll) (maxRetries : Nat)
    (timeout : ℚ) : Option PredData × List PollRequest :=
  predRespGo polls timeout 0 maxRetries

/-- The `data` payload of an add-drop-response poll. `duplicate` models the
`'duplicate'` key (absent, hence falsy, in server responses; set by the
rewrite in `get_add_drop_response`). `resend` is kept for field
preservation statements. -/
structure AddDropData where
  success : Bool
  errorMessage : Option ErrMsg
  duplicate : Bool
  resend : Option String
deriving DecidableEq, Repr

/-- The parsed JSON body of one add-drop-response poll round. -/
structure AddDropPoll where
  result : Int
  data : Option AddDropData
deriving DecidableEq, Repr

/-- `data.get('data') or {}`: a falsy payload degrades to an empty dict,
whose keys all read as falsy. -/
def addDropDataOrEmpty : Option AddDropData → AddDropData
  | some d => d
  | none => ⟨false, none, false, none⟩

/-- `result['errorMessage'].get('text', '未知错误')`. -/
def errTextOrDefault (e : ErrMsg) : String :=
  match e.text with
  | some t => t
  | none => "未知错误"

/-- The loop body of `get_add_drop_response`, recursing on the remaining
retry budget. A terminal `success` payload is returned as is; a terminal
`errorMessage` payload whose text is a duplicate marker is returned
rewritten with `success = True` and `duplicate = True`; any other
`errorMessage` payload is returned unchanged; `result == 0` with neither
marker waits and retries; `result != 0` returns `None`; exceptions retry
while budget remains; an exhausted budget returns `None`. -/
def addDropGo (polls : Nat → PollEvent AddDropPoll) (timeout : ℚ) :
    Nat → Nat → Option AddDropData × List PollRequest
  | _, 0 => (none, [])
  | i, remaining + 1 =>
    let req : PollRequest := ⟨i, timeout⟩
    match polls i with
    | .exn =>
        if remaining = 0 then (none, [req])
        else
          let (r, reqs) := addDropGo polls timeout (i + 1) remaining
          (r, req :: reqs)
    | .ok p =>
        if p.result = 0 then
          let d := addDropDataOrEmpty p.data
          if d.success then (some d, [req])
          else
            match d.errorMessage with
            | some em =>
                let errText := errTextOrDefault em
                if isDuplicateMessage (some errText) then
                  (some { d with success := true, duplicate := true }, [req])
                else (some d, [req])
            | none =>
                let (r, reqs) := addDropGo polls timeout (i + 1) remaining
                (r, req :: reqs)
        else (none, [req])

/-- `AHUCourseSelector.get_add_drop_response`: poll at most `maxRetries`
rounds, returning the (possibly duplicate-rewritten) payload or `None`. -/
def getAddDropResponse (polls : Nat → PollEvent AddDropPoll) (maxRetries : Nat)
    (timeout : ℚ) : Option AddDropData × List PollRequest :=
  addDropGo polls timeout 0 maxRetries

/-! ### `_single_attempt` (`rapid_select_course`, lines 858–891) -/

/-- The environment one attempt runs against: the request-id results of
`add_course_predicate` and `add_course_request` (`None` models any failed
submission) and the per-round poll responses of the two result polls. The
`try`/`except` wrapping the body catches exceptions of the modelled calls
inside those calls; no other modelled expression can raise. -/
structure AttemptEnv where
  predReqId : Option String
  predPolls : Nat → PollEvent PredPoll
  addReqId : Option String
  addPolls : Nat → PollEvent AddDropPoll

/-- The status message prefix `f"尝试{attempt_idx}: ..."`. -/
def attemptMsg (attemptIdx : Nat) (text : String) : String :=
  "尝试" ++ toString attemptIdx ++ ": " ++ text

/-- `v.get('text', '')` over one predicate result-map value followed by the
duplicate check; a non-dict value fails the `isinstance(v, dict)` guard. -/
def mapValDuplicate : MapVal → Bool
  | .dict text => isDuplicateMessage (some (text.getD ""))
  | .other => false

/-- `rapid_select_course._single_attempt`: submit the predicate, poll its
result with `max_retries=8`, recognise duplicate markers in the error text
and in the result map, then submit the add request and poll its result
with `max_retries=10`, classifying the terminal text. Returns the
`(ok, message)` pair handed to the scheduler. -/
def singleAttempt (env : AttemptEnv) (attemptIdx : Nat) (timeout : ℚ) :
    Bool × String :=
  match env.predReqId with
  | none => (false, attemptMsg attemptIdx "无 request_id")
  | some _ =>
    let pred := (getPredicateResponse env.predPolls 8 timeout).1
    let predOk := match pred with
      | some d => d.success
      | none => false
    if ! predOk then
      let errRaw := match pred with
        | some d => extractTextField (errToObj d.errorMessage)
        | none => extractTextField (.str "")
      let err := if errRaw = "" then "无结果" else errRaw
      if isDuplicateMessage (some err) then
        (true, attemptMsg attemptIdx "已选过 (预检)")
      else (false, attemptMsg attemptIdx ("预检失败 " ++ err))
    else
      let predMap := match pred with
        | some d => d.resultMap
        | none => []
      if predMap.any mapValDuplicate then
        (true, attemptMsg attemptIdx "已选过 (预检结果)")
      else
        match env.addReqId with
        | none => (false, attemptMsg attemptIdx "无 add-request id")
        | some _ =>
          let final := (getAddDropResponse env.addPolls 10 timeout).1
          let finalOk := match final with
            | some f => f.success
            | none => false
          if finalOk then (true, attemptMsg attemptIdx "正式成功")
          else
            let errRaw := match final with
              | some f => extractTextField (errToObj f.errorMessage)
              | none => extractTextField (.str "")
            let err := if errRaw = "" then "无最终结果" else errRaw
            if strContains err "时间冲突" then
              (false, attemptMsg attemptIdx "时间冲突")
            else if isDuplicateMessage (some err) ||
                (match final with
                  | some f => f.duplicate
                  | none => false) then
              (true, attemptMsg attemptIdx "已选过 (add-drop)")
            else (false, attemptMsg attemptIdx ("正式失败 " ++ err))

/-! ### The race scheduler (`rapid_select_course`, lines 893–948)

The `ThreadPoolExecutor` loop is modelled as a deterministic step function.
One `Tick` is one iteration of the `while True` loop: `now` is the
corrected time `datetime.fromtimestamp(time.time() + time_offset)` read at
the top of the iteration, and `done` is the set of futures
`wait(futures, return_when=FIRST_COMPLETED, timeout=0.05)` reports
completed, listed in iteration order of the `for fut in done` loop. -/

/-- Static data of one race: the pool size, the window deadline and the
outcome oracle mapping each attempt sequence number to the result of its
`_single_attempt` future. -/
structure RaceConfig where
  concurrency : Nat
  deadline : Int
  outcome : Nat → Bool × String

/-- Mutable loop state: `inFlight` holds the sequence numbers of the
futures in the `futures` set, `counter` is `attempt_counter`, and
`lastError` is `last_error`. -/
structure RaceState where
  inFlight : List Nat
  counter : Nat
  lastError : Option String
deriving DecidableEq, Repr

/-- State on entry to the loop: `futures = set()`, `attempt_counter = 0`,
`last_error = None`. -/
def raceInit : RaceState := ⟨[], 0, none⟩

/-- One iteration's environment input (see the section comment). -/
structure Tick where
  now : Int
  done : List Nat
deriving DecidableEq, Repr

/-- A finished race: `won` records the final `attempt_counter` and the
futures the success branch calls `.cancel()` on; `timedOut` records the
final `attempt_counter` of the deadline branch (which cancels nothing and
returns `False`). -/
inductive RaceResult where
  | won (attempts : Nat) (cancelled : List Nat)
  | timedOut (attempts : Nat)
deriving DecidableEq, Repr

/-- The boolean `rapid_select_course` returns for each finished race. -/
def raceResultBool : RaceResult → Bool
  | .won _ _ => true
  | .timedOut _ => false

/-- The refill loop `while len(futures) < concurrency`: submit attempts
with consecutive sequence numbers until the pool holds `concurrency`
futures. -/
def refill (k : Nat) (s : RaceState) : RaceState :=
  let n := k - s.inFlight.length
  { s with
      counter := s.counter + n,
      inFlight := s.inFlight ++ (List.range n).map (fun j => s.counter + 1 + j) }

/-- The `for fut in done` loop: set `last_error = msg` for each result in
turn, and break with success on the first `ok` result. -/
def processDone (outcome : Nat → Bool × String) :
    List Nat → Option String → Bool × Option String
  | [], lastError => (false, lastError)
  | f :: rest, _ =>
    if (outcome f).1 then (true, some (outcome f).2)
    else processDone outcome rest (some (outcome f).2)

/-- Result of one loop iteration: return from the function or continue
with the next state. -/
inductive StepOut where
  | ret (r : RaceResult)
  | cont (s : RaceState)
deriving DecidableEq, Repr

/-- One iteration of the `while True` loop: the strict deadline test
`if current_dt > deadline: return False` comes first; then the refill
loop; then `wait` splits off the completed futures (`done` is intersected
with the pool, and the pool keeps the rest); then the completion loop;
a success cancels exactly the still-pending futures and returns `True`. -/
def raceStep (cfg : RaceConfig) (t : Tick) (s : RaceState) : StepOut :=
  if t.now > cfg.deadline then .ret (.timedOut s.counter)
  else
    let s1 := refill cfg.concurrency s
    let doneEff := t.done.filter (fun f => s1.inFlight.contains f)
    let remaining := s1.inFlight.filter (fun f => ! doneEff.contains f)
    let pr := processDone cfg.outcome doneEff s1.lastError
    if pr.1 then .ret (.won s1.counter remaining)
    else .cont { inFlight := remaining, counter := s1.counter, lastError := pr.2 }

/-- Run the loop over a finite tick trace; `none` means the trace ended
with the race still in progress. -/
def raceRun (cfg : RaceConfig) : List Tick → RaceState → Option RaceResult
  | [], _ => none
  | t :: ts, s =>
    match raceStep cfg t s with
    | .ret r => some r
    | .cont s' => raceRun cfg ts s'

/-- Every loop state reached while running a tick trace, starting with the
entry state. -/
def raceTrace (cfg : RaceConfig) : List Tick → RaceState → List RaceState
  | [], s => [s]
  | t :: ts, s =>
    s :: (match raceStep cfg t s with
      | .ret _ => []
      | .cont s' => raceTrace cfg ts s')

/-- `rapid_select_course` end to end: derive the window from the corrected
time and the target time, then run the race loop from the entry state. -/
def rapidSelectCourse (nowDt targetTime : Int) (concurrency : Nat)
    (outcome : Nat → Bool × String) (ticks : List Tick) : Option RaceResult :=
  raceRun ⟨concurrency, computeDeadline nowDt targetTime, outcome⟩ ticks raceInit

/-- Concrete attempt environment: predicate succeeds cleanly, and the
confirm poll reports a schedule-conflict error text. -/
def conflictAttemptEnv : AttemptEnv :=
  ⟨some "req", fun _ => .ok ⟨0, some ⟨true, none, []⟩⟩, some "addreq",
    fun _ => .ok ⟨0, some ⟨false, some ⟨some "上课时间冲突", none, none⟩,
      false, none⟩⟩⟩

/-- Concrete attempt environment: the intent poll fails with the duplicate
("already held") error text. -/
def dupPredAttemptEnv : AttemptEnv :=
  ⟨some "req", fun _ => .ok ⟨0, some ⟨false,
    some ⟨some "相同教学班只能选一次", none, none⟩, []⟩⟩, none,
    fun _ => .exn⟩

/-! ### Helper lemmas -/

theorem refill_counter (k : Nat) (s : RaceState) :
    (refill k s).counter = s.counter + (k - s.inFlight.length) := rfl

theorem refill_length (k : Nat) (s : RaceState) :
    (refill k s).inFlight.length = max k s.inFlight.length := by
  simp only [refill, List.length_append, List.length_map, List.length_range]
  rcases Nat.le_total k s.inFlight.length with h | h
  · rw [Nat.max_eq_right h]; omega
  · rw [Nat.max_eq_left h]; omega

theorem refill_length_le (k : Nat) (s : RaceState)
    (hs : s.inFlight.length ≤ k) : (refill k s).inFlight.length ≤ k := by
  rw [refill_length, Nat.max_eq_left hs]

theorem refill_counter_lt (k : Nat) (s : RaceState)
    (hs : s.inFlight.length < k) : s.counter < (refill k s).counter := by
  rw [refill_counter]; omega

theorem processDone_fst_true (o : Nat → Bool × String) :
    ∀ (l : List Nat) (le : Option String),
      (∃ f ∈ l, (o f).1 = true) → (processDone o l le).1 = true := by
  intro l
  induction l with
  | nil => intro le h; simp at h
  | cons a rest ih =>
    intro le h
    by_cases ha : (o a).1 = true
    · simp [processDone, ha]
    · rcases h with ⟨f, hf, hof⟩
      rcases List.mem_cons.mp hf with rfl | hmem
      · exact absurd hof ha
      · simp only [processDone, Bool.not_eq_true] at ha ⊢
        rw [ha]
        exact ih _ ⟨f, hmem, hof⟩

theorem processDone_fst_false (o : Nat → Bool × String) :
    ∀ (l : List Nat) (le : Option String),
      (∀ f ∈ l, (o f).1 = false) → (processDone o l le).1 = false := by
  intro l
  induction l with
  | nil => intro le _; rfl
  | cons a rest ih =>
    intro le h
    have ha := h a (List.mem_cons_self a rest)
    simp only [processDone, ha]
    exact ih _ (fun f hf => h f (List.mem_cons_of_mem a hf))

theorem processDone_fst_congr (o₁ o₂ : Nat → Bool × String)
    (ho : ∀ i, (o₁ i).1 = (o₂ i).1) :
    ∀ (l : List Nat) (le₁ le₂ : Option String),
      (processDone o₁ l le₁).1 = (processDone o₂ l le₂).1 := by
  intro l
  induction l with
  | nil => intro le₁ le₂; rfl
  | cons a rest ih =>
    intro le₁ le₂
    simp only [processDone, ho a]
    by_cases ha : (o₂ a).1 = true
    · simp [ha]
    · simp only [Bool.not_eq_true] at ha
      simp only [ha, if_false, Bool.false_eq_true]
      exact ih _ _

theorem raceStep_timeout (cfg : RaceConfig) (t : Tick) (s : RaceState)
    (h : cfg.deadline < t.now) :
    raceStep cfg t s = .ret (.timedOut s.counter) := by
  simp [raceStep, h]

theorem raceStep_won (cfg : RaceConfig) (t : Tick) (s : RaceState)
    (hnow : t.now ≤ cfg.deadline)
    (hwin : (processDone cfg.outcome
        (t.done.filter (fun f => (refill cfg.concurrency s).inFlight.contains f))
        (refill cfg.concurrency s).lastError).1 = true) :
    raceStep cfg t s = .ret (.won (refill cfg.concurrency s).counter
      ((refill cfg.concurrency s).inFlight.filter (fun f =>
        ! (t.done.filter (fun g =>
            (refill cfg.concurrency s).inFlight.contains g)).contains f))) := by
  have hlt : ¬ (t.now > cfg.deadline) := not_lt.mpr hnow
  simp only [raceStep, hlt, if_false, hwin, if_true]

theorem raceStep_cont (cfg : RaceConfig) (t : Tick) (s : RaceState)
    (hnow : t.now ≤ cfg.deadline)
    (hfail : (processDone cfg.outcome
        (t.done.filter (fun f => (refill cfg.concurrency s).inFlight.contains f))
        (refill cfg.concurrency s).lastError).1 = false) :
    raceStep cfg t s = .cont
      { inFlight := (refill cfg.concurrency s).inFlight.filter (fun f =>
          ! (t.done.filter (fun g =>
              (refill cfg.concurrency s).inFlight.contains g)).contains f),
        counter := (refill cfg.concurrency s).counter,
        lastError := (processDone cfg.outcome
          (t.done.filter (fun f => (refill cfg.concurrency s).inFlight.contains f))
          (refill cfg.concurrency s).lastError).2 } := by
  have hlt : ¬ (t.now > cfg.deadline) := not_lt.mpr hnow
  simp only [raceStep, hlt, if_false, hfail, Bool.false_eq_true, if_false]

theorem raceStep_cont_inFlight_le (cfg : RaceConfig) (t : Tick)
    (s s' : RaceState) (h : raceStep cfg t s = .cont s')
    (hs : s.inFlight.length ≤ cfg.concurrency) :
    s'.inFlight.length ≤ cfg.concurrency := by
  by_cases hd : t.now > cfg.deadline
  · rw [raceStep_timeout cfg t s hd] at h; cases h
  · push_neg at hd
    rcases hp : (processDone cfg.outcome
        (t.done.filter (fun f => (refill cfg.concurrency s).inFlight.contains f))
        (refill cfg.concurrency s).lastError).1 with _ | _
    · rw [raceStep_cont cfg t s hd hp] at h
      cases h
      calc ((refill cfg.concurrency s).inFlight.filter _).length
          ≤ (refill cfg.concurrency s).inFlight.length := List.length_filter_le _ _
        _ ≤ cfg.concurrency := refill_length_le _ _ hs
    · rw [raceStep_won cfg t s hd hp] at h; cases h

theorem addDrop_duplicate_rewrite
    (polls : Nat → PollEvent AddDropPoll) (maxRetries : Nat) (timeout : ℚ)
    (d : AddDropData) (em : ErrMsg) (m : String)
    (h0 : polls 0 = .ok ⟨0, some d⟩) (hs : d.success = false)
    (hem : d.errorMessage = some em) (ht : em.text = some m)
    (hdup : isDuplicateMessage (some m) = true) (hmr : 1 ≤ maxRetries) :
    (getAddDropResponse polls maxRetries timeout).1 =
      some { d with success := true, duplicate := true } := by
  obtain ⟨r, rfl⟩ : ∃ r, maxRetries = r + 1 := ⟨maxRetries - 1, by omega⟩
  simp only [getAddDropResponse, addDropGo, h0, addDropDataOrEmpty, hs,
    errTextOrDefault, hem, ht, hdup, Bool.false_eq_true, if_false, if_true]

theorem raceRun_bool_congr (k : Nat) (dl : Int) (o₁ o₂ : Nat → Bool × String)
    (ho : ∀ j, (o₁ j).1 = (o₂ j).1) :
    ∀ (ts : List Tick) (s₁ s₂ : RaceState),
      s₁.inFlight = s₂.inFlight → s₁.counter = s₂.counter →
      raceRun ⟨k, dl, o₁⟩ ts s₁ = raceRun ⟨k, dl, o₂⟩ ts s₂ := by
  intro ts
  induction ts with
  | nil => intro s₁ s₂ _ _; rfl
  | cons t ts ih =>
    intro s₁ s₂ hif hc
    have hrif : (refill k s₁).inFlight = (refill k s₂).inFlight := by
      simp only [refill, hif, hc]
    have hrc : (refill k s₁).counter = (refill k s₂).counter := by
      simp only [refill, hif, hc]
    by_cases hd : dl < t.now
    · have e₁ := raceStep_timeout ⟨k, dl, o₁⟩ t s₁ hd
      have e₂ := raceStep_timeout ⟨k, dl, o₂⟩ t s₂ hd
      simp only [raceRun, e₁, e₂, hc]
    · push_neg at hd
      have hpd : (processDone o₁
            (t.done.filter (fun g => (refill k s₁).inFlight.contains g))
            (refill k s₁).lastError).1 =
          (processDone o₂
            (t.done.filter (fun g => (refill k s₂).inFlight.contains g))
            (refill k s₂).lastError).1 := by
        rw [← hrif]
        exact processDone_fst_congr o₁ o₂ ho _ _ _
      rcases hp₁ : (processDone o₁
          (t.done.filter (fun g => (refill k s₁).inFlight.contains g))
          (refill k s₁).lastError).1 with _ | _
      · have hp₂ := (hpd.symm.trans hp₁ :)
        have e₁ := raceStep_cont ⟨k, dl, o₁⟩ t s₁ hd hp₁
        have e₂ := raceStep_cont ⟨k, dl, o₂⟩ t s₂ hd hp₂
        simp only [raceRun, e₁, e₂]
        apply ih
        · simp only [hrif]
        · simp only [hrc]
      · have hp₂ := (hpd.symm.trans hp₁ :)
        have e₁ := raceStep_won ⟨k, dl, o₁⟩ t s₁ hd hp₁
        have e₂ := raceStep_won ⟨k, dl, o₂⟩ t s₂ hd hp₂
        simp only [raceRun, e₁, e₂, hrif, hrc]

theorem predRespGo_length (polls : Nat → PollEvent PredPoll) (timeout : ℚ) :
    ∀ (n i : Nat), (predRespGo polls timeout i n).2.length ≤ n := by
  intro n
  induction n with
  | zero => intro i; simp [predRespGo]
  | succ n ih =>
    intro i
    simp only [predRespGo]
    rcases polls i with p | _
    · by_cases hres : p.result = 0
      · rcases hd : p.data with _ | d
        · simp only [hres, hd, if_true]
          have := ih (i + 1)
          simp only [List.length_cons]
          omega
        · simp [hres, hd]
      · simp [hres]
    · by_cases hn : n = 0
      · simp [hn]
      · simp only [hn, if_false]
        have := ih (i + 1)
        simp only [List.length_cons]
        omega

theorem predRespGo_timeout (polls : Nat → PollEvent PredPoll) (timeout : ℚ) :
    ∀ (n i : Nat), ∀ r ∈ (predRespGo polls timeout i n).2,
      r.timeout = timeout := by
  intro n
  induction n with
  | zero => intro i r hr; simp [predRespGo] at hr
  | succ n ih =>
    intro i r hr
    simp only [predRespGo] at hr
    rcases hpi : polls i with p | _
    · rw [hpi] at hr
      by_cases hres : p.result = 0
      · rcases hd : p.data with _ | d
        · simp [hres, hd] at hr
          rcases hr with rfl | hmem
          · rfl
          · exact ih (i + 1) r hmem
        · simp [hres, hd] at hr
          subst hr
          rfl
      · simp [hres] at hr
        subst hr
        rfl
    · rw [hpi] at hr
      by_cases hn : n = 0
      · simp [hn] at hr
        subst hr
        rfl
      · simp only [hn, if_false] at hr
        rcases List.mem_cons.mp hr with rfl | hmem
        · rfl
        · exact ih (i + 1) r hmem

theorem predRespGo_notReady (polls : Nat → PollEvent PredPoll) (timeout : ℚ)
    (h : ∀ i, polls i = .exn ∨ polls i = .ok ⟨0, none⟩) :
    ∀ (n i : Nat), (predRespGo polls timeout i n).1 = none := by
  intro n
  induction n with
  | zero => intro i; rfl
  | succ n ih =>
    intro i
    simp only [predRespGo]
    rcases h i with hi | hi <;> rw [hi]
    · by_cases hn : n = 0
      · simp [hn]
      · simp only [hn, if_false]
        exact ih (i + 1)
    · simpa using ih (i + 1)

theorem addDropGo_length (polls : Nat → PollEvent AddDropPoll) (timeout : ℚ) :
    ∀ (n i : Nat), (addDropGo polls timeout i n).2.length ≤ n := by
  intro n
  induction n with
  | zero => intro i; simp [addDropGo]
  | succ n ih =>
    intro i
    simp only [addDropGo]
    rcases polls i with p | _
    · by_cases hres : p.result = 0
      · simp only [hres, if_true]
        rcases hsucc : (addDropDataOrEmpty p.data).success with _ | _
        · rcases hem : (addDropDataOrEmpty p.data).errorMessage with _ | em
          · simp only [hsucc, Bool.false_eq_true, if_false, hem,
              List.length_cons]
            have := ih (i + 1)
            omega
          · by_cases hdup : isDuplicateMessage
              (some (errTextOrDefault em)) = true
            · simp [hsucc, hem, hdup]
            · simp [hsucc, hem, hdup]
        · simp [hsucc]
      · simp [hres]
    · by_cases hn : n = 0
      · simp [hn]
      · simp only [hn, if_false, List.length_cons]
        have := ih (i + 1)
        omega

theorem addDropGo_timeout (polls : Nat → PollEvent AddDropPoll) (timeout : ℚ) :
    ∀ (n i : Nat), ∀ r ∈ (addDropGo polls timeout i n).2,
      r.timeout = timeout := by
  intro n
  induction n with
  | zero => intro i r hr; simp [addDropGo] at hr
  | succ n ih =>
    intro i r hr
    simp only [addDropGo] at hr
    rcases hpi : polls i with p | _
    · rw [hpi] at hr
      by_cases hres : p.result = 0
      · rcases hsucc : (addDropDataOrEmpty p.data).success with _ | _
        · rcases hem : (addDropDataOrEmpty p.data).errorMessage with _ | em
          · simp [hres, hsucc, hem] at hr
            rcases hr with rfl | hmem
            · rfl
            · exact ih (i + 1) r hmem
          · by_cases hdup : isDuplicateMessage
              (some (errTextOrDefault em)) = true
            · simp [hres, hsucc, hem, hdup] at hr
              subst hr
              rfl
            · simp [hres, hsucc, hem, hdup] at hr
              subst hr
              rfl
        · simp [hres, hsucc] at hr
          subst hr
          rfl
      · simp [hres] at hr
        subst hr
        rfl
    · rw [hpi] at hr
      by_cases hn : n = 0
      · simp [hn] at hr
        subst hr
        rfl
      · simp only [hn, if_false] at hr
        rcases List.mem_cons.mp hr with rfl | hmem
        · rfl
        · exact ih (i + 1) r hmem

theorem addDropGo_notReady (polls : Nat → PollEvent AddDropPoll) (timeout : ℚ)
    (h : ∀ i, polls i = .exn ∨ polls i = .ok ⟨0, none⟩ ∨
      ∃ d, polls i = .ok ⟨0, some d⟩ ∧ d.success = false ∧
        d.errorMessage = none) :
    ∀ (n i : Nat), (addDropGo polls timeout i n).1 = none := by
  intro n
  induction n with
  | zero => intro i; rfl
  | succ n ih =>
    intro i
    simp only [addDropGo]
    rcases h i with hi | hi | ⟨d, hi, hds, hde⟩ <;> rw [hi]
    · by_cases hn : n = 0
      · simp [hn]
      · simp only [hn, if_false]
        exact ih (i + 1)
    · simpa [addDropDataOrEmpty] using ih (i + 1)
    · simpa [addDropDataOrEmpty, hds, hde] using ih (i + 1)

/-! ### Claim theorems -/

/-- C8: each result poll (`get_predicate_response` and
`get_add_drop_response`) issues at most `max_retries` GET rounds, each
carrying the explicit per-poll timeout, and when no terminal result
arrives within the retry budget it returns `None` rather than blocking;
termination for every input is by construction of the recursion on the
remaining retry budget. -/
theorem result_polls_bounded (predPolls : Nat → PollEvent PredPoll)
    (addPolls : Nat → PollEvent AddDropPoll) (maxRetries : Nat)
    (timeout : ℚ) :
    (getPredicateResponse predPolls maxRetries timeout).2.length ≤
        maxRetries ∧
    (∀ r ∈ (getPredicateResponse predPolls maxRetries timeout).2,
      r.timeout = timeout) ∧
    ((∀ i, predPolls i = .exn ∨ predPolls i = .ok ⟨0, none⟩) →
      (getPredicateResponse predPolls maxRetries timeout).1 = none) ∧
    (getAddDropResponse addPolls maxRetries timeout).2.length ≤
        maxRetries ∧
    (∀ r ∈ (getAddDropResponse addPolls maxRetries timeout).2,
      r.timeout = timeout) ∧
    ((∀ i, addPolls i = .exn ∨ addPolls i = .ok ⟨0, none⟩ ∨
        ∃ d, addPolls i = .ok ⟨0, some d⟩ ∧ d.success = false ∧
          d.errorMessage = none) →
      (getAddDropResponse addPolls maxRetries timeout).1 = none) := by
  refine ⟨predRespGo_length predPolls timeout maxRetries 0,
    predRespGo_timeout predPolls timeout maxRetries 0,
    fun h => predRespGo_notReady predPolls timeout h maxRetries 0,
    addDropGo_length addPolls timeout maxRetries 0,
    addDropGo_timeout addPolls timeout maxRetries 0,
    fun h => addDropGo_notReady addPolls timeout h maxRetries 0⟩

/-- C8 witness: ten not-ready predicate rounds issue exactly ≤ 10 GETs and
end in `None`; ten raising add-drop rounds also end in `None`. -/
theorem result_polls_bounded_witness :
    (getPredicateResponse (fun _ => .ok ⟨0, none⟩) 10 5).2.length ≤ 10 ∧
    (getPredicateResponse (fun _ => .ok ⟨0, none⟩) 10 5).1 = none ∧
    (getAddDropResponse (fun _ => .exn) 10 5).1 = none := by
  refine ⟨(result_polls_bounded (fun _ => .ok ⟨0, none⟩)
      (fun _ => .exn) 10 5).1, ?_, ?_⟩
  · exact (result_polls_bounded (fun _ => .ok ⟨0, none⟩)
      (fun _ => .exn) 10 5).2.2.1 (fun i => Or.inr rfl)
  · exact (result_polls_bounded (fun _ => .ok ⟨0, none⟩)
      (fun _ => .exn) 10 5).2.2.2.2.2 (fun i => Or.inl rfl)

/-- C4 counterexample: with corrected now equal to the target time (both 0
here), `rapid_select_course` sets the window start to `target_time − 5`,
while the claimed formula `max(now, target_time − lead-in)` gives `now`;
the two differ, so the claimed start formula is false on the code. -/
theorem race_window_start_counterexample :
    computeStart 0 0 = -5 ∧ max (0 : Int) (0 - 5) = 0 ∧
    computeStart 0 0 ≠ max (0 : Int) (0 - 5) := by
  refine ⟨rfl, rfl, ?_⟩
  decide

/-- C4 (amended): the window derived by `rapid_select_course` satisfies
start = now − 1 when now is past the target time, start = target − 5 (the
fixed 5-second lead-in) otherwise; deadline = max(target, now) + 180 (the
fixed overrun budget); and the invariant start ≤ deadline holds in every
case. -/
theorem race_window_spec (nowDt targetTime : Int) :
    computeDeadline nowDt targetTime = max targetTime nowDt + 180 ∧
    (targetTime < nowDt → computeStart nowDt targetTime = nowDt - 1) ∧
    (nowDt ≤ targetTime → computeStart nowDt targetTime = targetTime - 5) ∧
    computeStart nowDt targetTime ≤ computeDeadline nowDt targetTime := by
  refine ⟨rfl, ?_, ?_, ?_⟩
  · intro h
    simp [computeStart, h]
  · intro h
    simp [computeStart, not_lt.mpr h]
  · unfold computeStart computeDeadline maxDuration
    rcases le_total targetTime nowDt with h | h
    · rw [max_eq_right h]
      split <;> omega
    · rw [max_eq_left h]
      split <;> omega

/-- C4 witness: the amended window formulas and the invariant evaluated at
concrete times on both sides of the target. -/
theorem race_window_spec_witness :
    computeDeadline 10 3 = max 3 10 + 180 ∧ computeStart 10 3 = 9 ∧
    computeStart 3 10 = 5 ∧ computeStart 10 3 ≤ computeDeadline 10 3 := by
  refine ⟨(race_window_spec 10 3).1, ?_, ?_, (race_window_spec 10 3).2.2.2⟩
  · have h := (race_window_spec 10 3).2.1 (by decide)
    rw [h]
    decide
  · have h := (race_window_spec 3 10).2.2.1 (by decide)
    rw [h]
    decide

/-- C9: outcome classification is deterministic and total — for every
input, including `None`, the empty string, and non-dict values, the
duplicate-marker check yields exactly one boolean and the text-field
extractor exactly one string; both are pure functions of their argument
(side-effect-freedom is by construction of the embedding). -/
theorem classifier_total_deterministic :
    (∀ m : Option String,
      isDuplicateMessage m = true ∨ isDuplicateMessage m = false) ∧
    (∀ (m : Option String) (b₁ b₂ : Bool),
      isDuplicateMessage m = b₁ → isDuplicateMessage m = b₂ → b₁ = b₂) ∧
    isDuplicateMessage none = false ∧
    isDuplicateMessage (some "") = false ∧
    (∀ o : TextObj, ∃! s : String, extractTextField o = s) ∧
    extractTextField .noneV = "" ∧
    extractTextField .other = "" ∧
    extractTextField (.dict none none none) = "" ∧
    (∀ s : String, extractTextField (.str s) = s) := by
  refine ⟨?_, ?_, rfl, by decide, ?_, rfl, rfl, rfl, fun s => rfl⟩
  · intro m
    rcases Bool.eq_false_or_eq_true (isDuplicateMessage m) with h | h
    · exact Or.inl h
    · exact Or.inr h
  · intro m b₁ b₂ h₁ h₂
    exact h₁.symm.trans h₂
  · intro o
    exact ⟨extractTextField o, rfl, fun y hy => hy.symm⟩

/-- C9 witness: the classification facts instantiated at concrete inputs,
including the determinism conjunct applied at `None`. -/
theorem classifier_total_deterministic_witness :
    isDuplicateMessage none = false ∧ extractTextField .other = "" ∧
    (false = false) := by
  refine ⟨classifier_total_deterministic.2.2.1,
    classifier_total_deterministic.2.2.2.2.2.2.1, ?_⟩
  exact classifier_total_deterministic.2.1 none false false
    classifier_total_deterministic.2.2.1 classifier_total_deterministic.2.2.1

/-- C10: when a terminal add-drop poll result carries an `errorMessage`
whose `text` is a recognized duplicate marker, `get_add_drop_response`
returns that result rewritten with `success = True` and
`duplicate = True`, so the server-reported duplicate error reaches every
caller as a successful outcome. -/
theorem add_drop_duplicate_rewritten_as_success
    (polls : Nat → PollEvent AddDropPoll) (maxRetries : Nat) (timeout : ℚ)
    (d : AddDropData) (em : ErrMsg) (m : String)
    (h0 : polls 0 = .ok ⟨0, some d⟩) (hs : d.success = false)
    (hem : d.errorMessage = some em) (ht : em.text = some m)
    (hdup : isDuplicateMessage (some m) = true) (hmr : 1 ≤ maxRetries) :
    (getAddDropResponse polls maxRetries timeout).1 =
      some { d with success := true, duplicate := true } :=
  addDrop_duplicate_rewrite polls maxRetries timeout d em m h0 hs hem ht
    hdup hmr

/-- C10 witness: a concrete first-round duplicate error is returned with
`success` and `duplicate` forced to true and all other fields kept. -/
theorem add_drop_duplicate_rewritten_witness :
    (getAddDropResponse
      (fun _ => .ok ⟨0, some ⟨false,
        some ⟨some "相同教学班只能选一次", none, none⟩, false, some "rs"⟩⟩)
      10 5).1 =
      some ⟨true, some ⟨some "相同教学班只能选一次", none, none⟩, true,
        some "rs"⟩ :=
  add_drop_duplicate_rewritten_as_success _ 10 5 _ _ "相同教学班只能选一次"
    rfl rfl rfl rfl (by decide) (by decide)

/-- C2: at every point of a race run with concurrency `k`, the number of
in-flight attempts never exceeds `k` — both the state at the top of each
loop iteration and its refilled state (the in-iteration peak, reached just
after the `while len(futures) < concurrency` loop) stay within `k`; with
`k = 1` there is thus never more than one in-flight attempt. -/
theorem race_pool_never_exceeds_concurrency (cfg : RaceConfig)
    (ts : List Tick) (s : RaceState)
    (hs : s.inFlight.length ≤ cfg.concurrency) :
    ∀ s' ∈ raceTrace cfg ts s,
      s'.inFlight.length ≤ cfg.concurrency ∧
      (refill cfg.concurrency s').inFlight.length ≤ cfg.concurrency := by
  induction ts generalizing s with
  | nil =>
    intro s' hs'
    simp only [raceTrace, List.mem_singleton] at hs'
    subst hs'
    exact ⟨hs, refill_length_le _ _ hs⟩
  | cons t ts ih =>
    intro s' hs'
    simp only [raceTrace] at hs'
    rcases List.mem_cons.mp hs' with rfl | hmem
    · exact ⟨hs, refill_length_le _ _ hs⟩
    · rcases hstep : raceStep cfg t s with r | s₂
      · rw [hstep] at hmem
        simp at hmem
      · rw [hstep] at hmem
        exact ih s₂ (raceStep_cont_inFlight_le cfg t s s₂ hstep hs) s' hmem

/-- C2 witness: a concurrency-1 race over one tick: both traced states and
their refilled peaks hold at most one in-flight attempt. -/
theorem race_pool_never_exceeds_concurrency_witness :
    ({ inFlight := [], counter := 1, lastError := some "m" } :
        RaceState).inFlight.length ≤ 1 ∧
    (refill 1 { inFlight := [], counter := 1, lastError := some "m" }
      ).inFlight.length ≤ 1 :=
  race_pool_never_exceeds_concurrency ⟨1, 100, fun _ => (false, "m")⟩
    [⟨0, [1]⟩] raceInit (by decide)
    { inFlight := [], counter := 1, lastError := some "m" } (by decide)

/-- C1: once a completed attempt is collected with a winning (`ok = true`,
i.e. Success or AlreadyHeld) outcome at an iteration that passed the
deadline test, the race returns `True` immediately: the final attempt
counter is the one of that same iteration (no later launches happen on
any continuation of the trace), and the futures cancelled are exactly the
remaining in-flight ones. -/
theorem race_stops_on_first_success (cfg : RaceConfig) (t : Tick)
    (s : RaceState) (ts : List Tick) (hnow : t.now ≤ cfg.deadline)
    (hwin : ∃ f ∈ t.done.filter
        (fun f => (refill cfg.concurrency s).inFlight.contains f),
      (cfg.outcome f).1 = true) :
    raceRun cfg (t :: ts) s =
      some (.won (refill cfg.concurrency s).counter
        ((refill cfg.concurrency s).inFlight.filter (fun f =>
          ! (t.done.filter (fun g =>
              (refill cfg.concurrency s).inFlight.contains g)).contains f))) ∧
    (raceRun cfg (t :: ts) s).map raceResultBool = some true := by
  have hp := processDone_fst_true cfg.outcome _
    (refill cfg.concurrency s).lastError hwin
  have hstep := raceStep_won cfg t s hnow hp
  constructor
  · simp [raceRun, hstep]
  · simp [raceRun, hstep, raceResultBool]

/-- C1 witness: a two-slot race whose attempt 1 completes winning at the
first tick returns `won` with 2 attempts launched and future 2 (the only
remaining in-flight one) cancelled, on a trace with no further ticks. -/
theorem race_stops_on_first_success_witness :
    raceRun ⟨2, 100, fun i => (i == 1, "w")⟩ [⟨0, [1]⟩] raceInit =
      some (.won 2 [2]) := by
  have h := race_stops_on_first_success ⟨2, 100, fun i => (i == 1, "w")⟩
    ⟨0, [1]⟩ raceInit [] (by decide) ⟨1, by decide, by decide⟩
  rw [h.1]
  rfl

/-- C5 counterexample: with corrected now exactly equal to the deadline
(both 0) and no Success/AlreadyHeld observed, the claim says the race
returns false; instead the loop's deadline test is strict
(`current_dt > deadline`), so the iteration proceeds, launches attempt 1,
and the race continues. -/
theorem race_deadline_boundary_counterexample :
    raceStep ⟨1, 0, fun _ => (false, "m")⟩ ⟨0, []⟩ raceInit =
      .cont ⟨[1], 1, none⟩ ∧
    raceRun ⟨1, 0, fun _ => (false, "m")⟩ [⟨0, []⟩] raceInit = none := by
  decide

/-- C5 (amended): whenever corrected now strictly exceeds the window
deadline at the top of the loop, the race returns `False` with the
attempt counter unchanged (so no attempt is launched at or after that
observation; the deadline branch cancels nothing — remaining futures are
only awaited by the executor shutdown); a race whose first observed time
is past the deadline returns `False` with zero attempts launched; and the
deadline derived by `rapid_select_course` is always strictly in the
future at call time, so the first iteration never times out. -/
theorem race_deadline_expiry_returns_false (cfg : RaceConfig) (t : Tick)
    (s : RaceState) (ts : List Tick) (h : cfg.deadline < t.now) :
    raceRun cfg (t :: ts) s = some (.timedOut s.counter) ∧
    (raceRun cfg (t :: ts) s).map raceResultBool = some false ∧
    raceRun cfg (t :: ts) raceInit = some (.timedOut 0) ∧
    (∀ nowDt targetTime : Int, nowDt < computeDeadline nowDt targetTime) := by
  have h1 := raceStep_timeout cfg t s h
  have h2 := raceStep_timeout cfg t raceInit h
  refine ⟨by simp [raceRun, h1], by simp [raceRun, h1, raceResultBool],
    by simp only [raceRun, h2]; rfl, ?_⟩
  intro nowDt targetTime
  have hm : nowDt ≤ max targetTime nowDt := le_max_right _ _
  unfold computeDeadline maxDuration
  linarith

/-- C5 witness: a race whose single tick reads time 1 past deadline 0
returns `timedOut` with zero attempts, mapping to `False`. -/
theorem race_deadline_expiry_returns_false_witness :
    raceRun ⟨1, 0, fun _ => (false, "m")⟩ [⟨1, []⟩] raceInit =
      some (.timedOut 0) ∧
    (0 : Int) < computeDeadline 0 0 := by
  have h := race_deadline_expiry_returns_false ⟨1, 0, fun _ => (false, "m")⟩
    ⟨1, []⟩ raceInit [] (by decide)
  exact ⟨h.2.2.1, h.2.2.2 0 0⟩

/-- C7: an attempt whose confirm-poll terminal non-success response text
contains the conflict marker `时间冲突` yields `(False, "时间冲突")` —
ending only that attempt; the scheduler treats any false outcome as
non-terminal for the race: an iteration within the deadline whose
completions are all failures continues (no return), each continuing
iteration has already refilled the pool (counter grown by the number of
free slots), and a refill from below capacity strictly increases the
attempt counter, so new attempts keep being launched while time remains. -/
theorem conflict_terminates_only_attempt
    (env : AttemptEnv) (i : Nat) (timeout : ℚ) (r a : String)
    (d : PredData) (f : AddDropData)
    (hreq : env.predReqId = some r)
    (hpred : (getPredicateResponse env.predPolls 8 timeout).1 = some d)
    (hds : d.success = true)
    (hmap : d.resultMap.any mapValDuplicate = false)
    (hareq : env.addReqId = some a)
    (hfin : (getAddDropResponse env.addPolls 10 timeout).1 = some f)
    (hfs : f.success = false)
    (hconf : strContains (extractTextField (errToObj f.errorMessage))
      "时间冲突" = true) :
    singleAttempt env i timeout = (false, attemptMsg i "时间冲突") ∧
    (∀ (cfg : RaceConfig) (t : Tick) (s : RaceState),
      t.now ≤ cfg.deadline → (∀ j, (cfg.outcome j).1 = false) →
      ∃ s', raceStep cfg t s = .cont s') ∧
    (∀ (cfg : RaceConfig) (t : Tick) (s s' : RaceState),
      raceStep cfg t s = .cont s' →
      s'.counter = s.counter + (cfg.concurrency - s.inFlight.length)) ∧
    (∀ (k : Nat) (s : RaceState), s.inFlight.length < k →
      s.counter < (refill k s).counter) := by
  refine ⟨?_, ?_, ?_, refill_counter_lt⟩
  · have hne : extractTextField (errToObj f.errorMessage) ≠ "" := by
      intro hz
      rw [hz] at hconf
      exact absurd hconf (by decide)
    simp only [singleAttempt, hreq, hpred, hds, hmap, hareq, hfin, hfs,
      hne, hconf, Bool.not_true, Bool.false_eq_true, if_false, if_true]
  · intro cfg t s h₁ h₂
    exact ⟨_, raceStep_cont cfg t s h₁
      (processDone_fst_false cfg.outcome _ _ (fun g _ => h₂ g))⟩
  · intro cfg t s s' hstep
    by_cases hd : t.now > cfg.deadline
    · rw [raceStep_timeout cfg t s hd] at hstep
      cases hstep
    · push_neg at hd
      rcases hp : (processDone cfg.outcome
          (t.done.filter (fun g =>
            (refill cfg.concurrency s).inFlight.contains g))
          (refill cfg.concurrency s).lastError).1 with _ | _
      · rw [raceStep_cont cfg t s hd hp] at hstep
        cases hstep
        rfl
      · rw [raceStep_won cfg t s hd hp] at hstep
        cases hstep

/-- C7 witness: a concrete conflict-reporting environment yields the
conflict outcome, and a within-deadline iteration whose outcomes are all
failures continues the race. -/
theorem conflict_terminates_only_attempt_witness :
    singleAttempt conflictAttemptEnv 7 5 = (false, attemptMsg 7 "时间冲突") ∧
    (∃ s', raceStep ⟨1, 10, fun _ => (false, "x")⟩ ⟨0, []⟩ raceInit =
      .cont s') := by
  have h := conflict_terminates_only_attempt conflictAttemptEnv 7 5
    "req" "addreq" ⟨true, none, []⟩
    ⟨false, some ⟨some "上课时间冲突", none, none⟩, false, none⟩
    rfl (by decide) rfl rfl rfl (by decide) rfl (by decide)
  exact ⟨h.1, h.2.1 ⟨1, 10, fun _ => (false, "x")⟩ ⟨0, []⟩ raceInit
    (by decide) (fun j => rfl)⟩

/-- C6: AlreadyHeld and Success are interchangeable race-winning
outcomes: a duplicate ("already held") marker recognized at the intent
poll's error text, at the intent result map, or at the confirm poll makes
the attempt report `ok = true`, same as a plain success; and the race
scheduler's result depends on attempt outcomes only through that boolean,
so a race stops identically on either outcome. -/
theorem already_held_equiv_success :
    (∀ (env : AttemptEnv) (i : Nat) (timeout : ℚ) (r : String)
        (d : PredData),
      env.predReqId = some r →
      (getPredicateResponse env.predPolls 8 timeout).1 = some d →
      d.success = false →
      isDuplicateMessage
        (some (extractTextField (errToObj d.errorMessage))) = true →
      singleAttempt env i timeout = (true, attemptMsg i "已选过 (预检)")) ∧
    (∀ (env : AttemptEnv) (i : Nat) (timeout : ℚ) (r : String)
        (d : PredData),
      env.predReqId = some r →
      (getPredicateResponse env.predPolls 8 timeout).1 = some d →
      d.success = true →
      d.resultMap.any mapValDuplicate = true →
      singleAttempt env i timeout = (true, attemptMsg i "已选过 (预检结果)")) ∧
    (∀ (env : AttemptEnv) (i : Nat) (timeout : ℚ) (r a : String)
        (d : PredData) (f : AddDropData) (em : ErrMsg) (m : String),
      env.predReqId = some r →
      (getPredicateResponse env.predPolls 8 timeout).1 = some d →
      d.success = true →
      d.resultMap.any mapValDuplicate = false →
      env.addReqId = some a →
      env.addPolls 0 = .ok ⟨0, some f⟩ →
      f.success = false →
      f.errorMessage = some em →
      em.text = some m →
      isDuplicateMessage (some m) = true →
      singleAttempt env i timeout = (true, attemptMsg i "正式成功")) ∧
    (∀ (k : Nat) (dl : Int) (o₁ o₂ : Nat → Bool × String),
      (∀ j, (o₁ j).1 = (o₂ j).1) →
      ∀ (ts : List Tick) (s₁ s₂ : RaceState),
        s₁.inFlight = s₂.inFlight → s₁.counter = s₂.counter →
        raceRun ⟨k, dl, o₁⟩ ts s₁ = raceRun ⟨k, dl, o₂⟩ ts s₂) := by
  refine ⟨?_, ?_, ?_, raceRun_bool_congr⟩
  · intro env i timeout r d hreq hpred hds hdup
    have hne : extractTextField (errToObj d.errorMessage) ≠ "" := by
      intro hz
      rw [hz] at hdup
      exact absurd hdup (by decide)
    simp only [singleAttempt, hreq, hpred, hds, hne, hdup, Bool.not_false,
      Bool.false_eq_true, if_false, if_true]
  · intro env i timeout r d hreq hpred hds hmap
    simp only [singleAttempt, hreq, hpred, hds, hmap, Bool.not_true,
      Bool.false_eq_true, if_false, if_true]
  · intro env i timeout r a d f em m hreq hpred hds hmap hareq h0 hfs hem
      ht hdup
    have hfin := addDrop_duplicate_rewrite env.addPolls 10 timeout f em m
      h0 hfs hem ht hdup (by omega)
    simp only [singleAttempt, hreq, hpred, hds, hmap, hareq, hfin,
      Bool.not_true, Bool.false_eq_true, if_false, if_true]

/-- C6 witness: the intent-poll duplicate marker wins a concrete attempt,
and two races whose outcome oracles agree on the winning boolean (labelled
"Success" and "AlreadyHeld" respectively) finish identically. -/
theorem already_held_equiv_success_witness :
    singleAttempt dupPredAttemptEnv 1 5 = (true, attemptMsg 1 "已选过 (预检)") ∧
    raceRun ⟨1, 10, fun _ => (true, "Success")⟩ [⟨0, [1]⟩] raceInit =
      raceRun ⟨1, 10, fun _ => (true, "AlreadyHeld")⟩ [⟨0, [1]⟩] raceInit := by
  constructor
  · exact already_held_equiv_success.1 dupPredAttemptEnv 1 5 "req"
      ⟨false, some ⟨some "相同教学班只能选一次", none, none⟩, []⟩
      rfl (by decide) rfl (by decide)
  · exact already_held_equiv_success.2.2.2 1 10 _ _ (fun j => rfl)
      [⟨0, [1]⟩] raceInit raceInit rfl rfl

/-- C3 counterexample: a run in which all three NTP samples fail returns
offset 0 but emits its diagnostics on the error and info channels only —
no warn-level message is signalled, contradicting the claim's "signals a
warning". -/
theorem sync_time_zero_samples_counterexample :
    (syncTimeWithNtp [.fail "e1", .fail "e2", .fail "e3"]).1 = 0 ∧
    ((syncTimeWithNtp [.fail "e1", .fail "e2", .fail "e3"]).2.all
      (fun l => l.1 ≠ LogLevel.warn)) = true ∧
    (LogLevel.error, "所有NTP同步尝试失败") ∈
      (syncTimeWithNtp [.fail "e1", .fail "e2", .fail "e3"]).2 := by
  decide

/-- C3 (amended): `sync_time_with_ntp` returns the arithmetic mean of the
successful samples' offsets (characterised by mean · count = sum, so it
holds degenerately in the zero-sample case too); with zero successful
samples it returns exactly 0 and emits a non-fatal error-level diagnostic
(not a warn-level one); and it never raises: each per-sample failure is
caught by its own handler and removes only its own sample. -/
theorem sync_time_with_ntp_spec (samples pre post : List NtpSample)
    (e : String) :
    (syncTimeWithNtp samples).1 * ((ntpOffsets samples).length : ℚ) =
      (ntpOffsets samples).sum ∧
    (ntpOffsets samples = [] → (syncTimeWithNtp samples).1 = 0 ∧
      (LogLevel.error, "所有NTP同步尝试失败") ∈ (syncTimeWithNtp samples).2) ∧
    ntpOffsets (pre ++ .fail e :: post) = ntpOffsets pre ++ ntpOffsets post := by
  refine ⟨?_, ?_, ?_⟩
  · by_cases h : ntpOffsets samples = []
    · simp [syncTimeWithNtp, h]
    · have hlen : ((ntpOffsets samples).length : ℚ) ≠ 0 := by
        simpa using List.length_eq_zero.not.mpr h
      simp only [syncTimeWithNtp, h, ne_eq, not_false_eq_true, if_true]
      exact div_mul_cancel₀ _ hlen
  · intro h
    simp [syncTimeWithNtp, h]
  · simp [ntpOffsets]

/-- C3 witness: two successful samples of offsets 1 and 3 give
mean · 2 = 4; an all-fail run returns 0 with the error diagnostic; and a
failing middle sample only removes itself. -/
theorem sync_time_with_ntp_spec_witness :
    (syncTimeWithNtp [.ok 1, .fail "x", .ok 3]).1 *
        ((ntpOffsets [.ok 1, .fail "x", .ok 3]).length : ℚ) =
      (ntpOffsets [.ok 1, .fail "x", .ok 3]).sum ∧
    (syncTimeWithNtp [.fail "x", .fail "y", .fail "z"]).1 = 0 ∧
    (LogLevel.error, "所有NTP同步尝试失败") ∈
      (syncTimeWithNtp [.fail "x", .fail "y", .fail "z"]).2 ∧
    ntpOffsets [NtpSample.ok 1, .fail "x", .ok 3] =
      ntpOffsets [.ok 1] ++ ntpOffsets [.ok 3] := by
  have h₁ := sync_time_with_ntp_spec [.ok 1, .fail "x", .ok 3]
    [.ok 1] [.ok 3] "x"
  have h₂ := sync_time_with_ntp_spec [.fail "x", .fail "y", .fail "z"]
    [] [] "x"
  exact ⟨h₁.1, (h₂.2.1 (by decide)).1, (h₂.2.1 (by decide)).2, h₁.2.2⟩

end CourseSelector
